import Mathlib

/-!
Shallow embedding of the LLM PoC-generation dispatch core of solaudit-agent
(the code of packages/engine/src/proof/llm-poc-generator.ts as produced by the
patch scripts fix-poc-gen.py and fix-poc-review.py): provider resolution,
environment-driven configuration, the callLLM retry loop, the batch dispatch
cooldown schedule, and the stable PoC identifier token.
-/

namespace SolAudit

/-! String helpers modelling the JavaScript string operations used by the code. -/

/-- Does the first list of characters occur as a contiguous run at the head of
the second? -/
def startsW : List Char → List Char → Bool
  | [], _ => true
  | _ :: _, [] => false
  | a :: as, b :: bs => a == b && startsW as bs

/-- Does the pattern occur contiguously anywhere in the list? -/
def occursIn (pat : List Char) : List Char → Bool
  | [] => pat.isEmpty
  | c :: cs => startsW pat (c :: cs) || occursIn pat cs

/-- JavaScript s.includes(pat): does pat occur as a substring of s? -/
def jsIncl (s pat : String) : Bool := occursIn pat.data s.data

/-- JavaScript s.toLowerCase(), character by character (ASCII; the markers the
code scans for are all ASCII). -/
def jsToLower (s : String) : String := ⟨s.data.map Char.toLower⟩

/-- JavaScript s.trim(): drop whitespace from both ends. -/
def jsTrim (s : String) : String :=
  ⟨((s.data.dropWhile Char.isWhitespace).reverse.dropWhile Char.isWhitespace).reverse⟩

/-- JavaScript s.slice(0, n): the first n characters of s. -/
def takeChars (s : String) (n : Nat) : String := ⟨s.data.take n⟩

/-- JavaScript truthiness of an optional environment-variable value: an unset
variable (none) and the empty string are falsy, every other string is truthy. -/
def truthy : Option String → Bool
  | none => false
  | some s => s != ""

/-- JavaScript a || d for an optional string a and a string default d: the
value of a when it is truthy, otherwise d. -/
def jsOrD (a : Option String) (d : String) : String :=
  match a with
  | some s => if s == "" then d else s
  | none => d

/-- Numeric value of a run of decimal digits. -/
def digitsVal (ds : List Char) : Nat :=
  ds.foldl (fun a c => a * 10 + (c.toNat - 48)) 0

/-- JavaScript parseInt(s, 10): skip leading whitespace, read an optional sign,
then the longest run of decimal digits; none models NaN (no digits found).
Float rounding of extremely long digit runs is not modelled. -/
def jsParseInt10 (s : String) : Option Int :=
  let cs := s.data.dropWhile Char.isWhitespace
  let signed : Bool × List Char :=
    match cs with
    | '-' :: rest => (true, rest)
    | '+' :: rest => (false, rest)
    | _ => (false, cs)
  let ds := signed.2.takeWhile Char.isDigit
  if ds.isEmpty then none
  else if signed.1 then some (-(digitsVal ds : Int)) else some (digitsVal ds)

/-! Environment and configuration (fix-poc-review.py, config section). -/

/-- The environment variables read by the PoC generator. -/
structure Env where
  pocProvider : Option String := none
  kimiCodeApiKey : Option String := none
  moonshotApiKey : Option String := none
  llmPocModel : Option String := none
  moonshotModel : Option String := none
  llmPocMaxTokens : Option String := none
  llmPocTimeoutMs : Option String := none
  llmPocRetries : Option String := none
  llmPocConcurrency : Option String := none
  llmPocMax : Option String := none
  llmPocDelayMs : Option String := none
deriving DecidableEq

/-- Provider selection: POC_PROVIDER=auto|kimi_code|moonshot. -/
inductive PocProvider
  | kimi_code
  | moonshot
deriving DecidableEq

/-- resolvePocProvider: a recognized explicit override (lower-cased) wins,
otherwise auto-select prefers Kimi Code when KIMI_CODE_API_KEY is set. -/
def resolvePocProvider (env : Env) : PocProvider :=
  let explicit := env.pocProvider.map jsToLower
  if explicit == some "kimi_code" then .kimi_code
  else if explicit == some "moonshot" then .moonshot
  else if truthy env.kimiCodeApiKey then .kimi_code
  else .moonshot

/-- getPocApiUrl: endpoint URL as a function of the resolved provider. -/
def getPocApiUrl (env : Env) : String :=
  if resolvePocProvider env == .kimi_code then
    "https://api.kimi.com/coding/v1/chat/completions"
  else
    "https://api.moonshot.ai/v1/chat/completions"

/-- getPocApiKey: the resolved provider's credential, or null when it is unset
or empty (JavaScript KEY || null). -/
def getPocApiKey (env : Env) : Option String :=
  match resolvePocProvider env with
  | .kimi_code => if truthy env.kimiCodeApiKey then env.kimiCodeApiKey else none
  | .moonshot => if truthy env.moonshotApiKey then env.moonshotApiKey else none

/-- getPocModel: LLM_POC_MODEL || MOONSHOT_MODEL || "kimi-k2.5". -/
def getPocModel (env : Env) : String :=
  jsOrD env.llmPocModel (jsOrD env.moonshotModel "kimi-k2.5")

/-- safeInt(key, fallback): parse the env value when truthy, otherwise NaN; a
non-finite parse result falls back to the default. -/
def safeInt (v : Option String) (fb : Int) : Int :=
  match v with
  | none => fb
  | some s =>
    if s == "" then fb
    else
      match jsParseInt10 s with
      | none => fb
      | some n => n

/-- The resolved dispatch configuration record. -/
structure DispatchConfig where
  maxTokens : Int
  timeoutMs : Int
  retries : Int
  concurrency : Int
  maxPocs : Int
  interRequestDelayMs : Int
deriving DecidableEq

/-- POC_CFG: each field resolved by safeInt from its environment variable and
documented default. -/
def POC_CFG (env : Env) : DispatchConfig :=
  { maxTokens := safeInt env.llmPocMaxTokens 4096
    timeoutMs := safeInt env.llmPocTimeoutMs 120000
    retries := safeInt env.llmPocRetries 2
    concurrency := safeInt env.llmPocConcurrency 1
    maxPocs := safeInt env.llmPocMax 10
    interRequestDelayMs := safeInt env.llmPocDelayMs 2000 }

/-! The callLLM request executor (fix-poc-review.py, new callLLM body). -/

/-- Transient signals scanned for in a 400 body (some providers send 400 for
rate-limits). -/
def transientMarkers : List String :=
  ["rate limit", "overloaded", "try again", "temporarily", "throttl"]

/-- Does the lower-cased body carry a transient signal? -/
def hasTransientMarker (lower : String) : Bool :=
  transientMarkers.any (fun t => jsIncl lower t)

/-- Token/context-limit signals scanned for in a 400 body. -/
def tokenLimitMarkers : List String :=
  ["max_tokens", "context length", "too many tokens"]

/-- Does the lower-cased body carry a token/context-limit signal? -/
def hasTokenLimitMarker (lower : String) : Bool :=
  tokenLimitMarkers.any (fun t => jsIncl lower t)

/-- One simulated provider response: HTTP status, body text, and the extracted
payload data.choices[0].message.content on a 2xx (none models a missing
field). -/
structure SimResponse where
  status : Nat
  body : String
  content : Option String
deriving DecidableEq

/-- Final result of one callLLM invocation: the returned text or the thrown
error message. -/
inductive CallOutcome
  | success : String → CallOutcome
  | failure : String → CallOutcome
deriving DecidableEq

/-- What one loop iteration did: the max_tokens carried by its request and the
delay slept before retrying (none when the iteration was the last). -/
structure AttemptLog where
  sentMaxTokens : Int
  sleptMs : Option Nat
deriving DecidableEq

/-- Trace of a callLLM invocation: final outcome plus one log entry per
request issued, in order. -/
structure CallTrace where
  outcome : CallOutcome
  log : List AttemptLog
deriving DecidableEq

/-- The 2xx payload emptiness test: !content || content.trim().length === 0. -/
def contentEmpty : Option String → Bool
  | none => true
  | some s => s == "" || jsTrim s == ""

/-- One iteration of the callLLM retry loop for attempt in [0..retries]. fuel
is the number of loop iterations still allowed after the current one, so the
current attempt index is retries - fuel and the source guard
attempt < POC_CFG.retries is exactly 0 < fuel; callLLM enters with
fuel = retries. maxTokens is the working token budget (mutable in the
source). -/
def callLLMGo (apiName : String) (responses : Nat → SimResponse) (retries : Nat)
    (maxTokens : Int) (fuel : Nat) : CallTrace :=
  let attempt := retries - fuel
  let res := responses attempt
  if res.status = 429 ∨ 500 ≤ res.status then
    match fuel with
    | left + 1 =>
      let rest := callLLMGo apiName responses retries maxTokens left
      ⟨rest.outcome, ⟨maxTokens, some (3000 * 2 ^ attempt)⟩ :: rest.log⟩
    | 0 =>
      ⟨.failure (apiName ++ " " ++ toString res.status ++ ": " ++ takeChars res.body 300),
       [⟨maxTokens, none⟩]⟩
  else if res.status = 400 then
    let lower := jsToLower res.body
    match fuel with
    | left + 1 =>
      if hasTransientMarker lower then
        let rest := callLLMGo apiName responses retries maxTokens left
        ⟨rest.outcome, ⟨maxTokens, some (3000 * 2 ^ attempt)⟩ :: rest.log⟩
      else if hasTokenLimitMarker lower ∧ 2048 < maxTokens then
        let rest := callLLMGo apiName responses retries (maxTokens / 2) left
        ⟨rest.outcome, ⟨maxTokens, some 1000⟩ :: rest.log⟩
      else
        ⟨.failure (apiName ++ " 400 (deterministic): " ++ takeChars res.body 300),
         [⟨maxTokens, none⟩]⟩
    | 0 =>
      ⟨.failure (apiName ++ " 400 (deterministic): " ++ takeChars res.body 300),
       [⟨maxTokens, none⟩]⟩
  else if ¬ (200 ≤ res.status ∧ res.status < 300) then
    ⟨.failure (apiName ++ " " ++ toString res.status ++ ": " ++ res.body),
     [⟨maxTokens, none⟩]⟩
  else if contentEmpty res.content then
    match fuel with
    | left + 1 =>
      let rest := callLLMGo apiName responses retries maxTokens left
      ⟨rest.outcome, ⟨maxTokens, some 1000⟩ :: rest.log⟩
    | 0 => ⟨.failure "Empty response after retries", [⟨maxTokens, none⟩]⟩
  else
    ⟨.success (res.content.getD ""), [⟨maxTokens, none⟩]⟩

/-- apiName label of a provider. -/
def apiNameOf : PocProvider → String
  | .kimi_code => "Kimi Code"
  | .moonshot => "Moonshot"

/-- The POC_PROVIDER tag of a provider, as interpolated in the error label. -/
def providerTag : PocProvider → String
  | .kimi_code => "kimi_code"
  | .moonshot => "moonshot"

/-- callLLM: resolve the provider, check the credential before any request,
then run the attempt loop with the configured maxTokens. retries is the
configured nonnegative retry budget POC_CFG.retries (the loop bound
attempt ≤ retries); responses gives the provider's reply to each attempt. -/
def callLLM (env : Env) (retries : Nat) (responses : Nat → SimResponse) : CallTrace :=
  let provider := resolvePocProvider env
  let apiName := apiNameOf provider
  match getPocApiKey env with
  | none =>
    ⟨.failure (apiName ++ " API key not set (POC_PROVIDER=" ++ providerTag provider ++ ")"),
     []⟩
  | some _ => callLLMGo apiName responses retries (POC_CFG env).maxTokens retries

/-! The batch dispatch loop (fix-poc-gen.py step 4 / fix-poc-review.py step 6):
toProcess.map((finding, idx) => limit(async () => { if (idx > 0) await
sleep(POC_CFG.interRequestDelayMs); ... })) under pLimit(concurrency). -/

/-- One work item as the scheduler sees it: how long its request occupies the
limiter and whether it succeeded (the outcome plays no role in scheduling). -/
structure DispatchItem where
  duration : Nat
  ok : Bool
deriving DecidableEq

/-- Timeline of the dispatch loop under pLimit(1) (the default sequential
concurrency): tasks start in submission order; the task for index idx is
admitted at time now, sleeps interRequestDelayMs first when idx > 0 (the
source guard if (idx > 0)), then issues its request, and the next task is
admitted when the request completes. Each entry is (admissionTime,
issueTime) for one item, in input order. -/
def dispatchTimes (delay : Nat) : List DispatchItem → Nat → Nat → List (Nat × Nat)
  | [], _, _ => []
  | it :: rest, idx, now =>
    let issue := now + (if 0 < idx then delay else 0)
    (now, issue) :: dispatchTimes delay rest (idx + 1) (issue + it.duration)

/-- Schedule of a whole batch, first item admitted at time 0. -/
def dispatchSchedule (delay : Nat) (items : List DispatchItem) : List (Nat × Nat) :=
  dispatchTimes delay items 0 0

/-! The stable PoC identifier token (fix-poc-review.py steps 3 and 5). -/

/-- The fields of a finding that the token, run command and fallback header
read. -/
structure Finding where
  classId : String
  className : String
  title : String
deriving DecidableEq

/-- The identifier token embedded in artifacts: PoC# followed by the class
identifier. -/
def pocToken (f : Finding) : String := "PoC#" ++ f.classId

/-- runCommand of a generated PoC: the anchor branch greps for the stable
token, the cargo branch names the test poc_<classId>_<safeName>. -/
def runCommand (isAnchor : Bool) (safeName : String) (f : Finding) : String :=
  if isAnchor then
    "cd <repo> && anchor test -- --grep \"PoC#" ++ f.classId ++ "\""
  else
    "cd <repo> && cargo test-sbf poc_" ++ f.classId ++ "_" ++ safeName

/-- Head of the fallback artifact's describe block:
describe("PoC#<classId>: <className> ... . -/
def fallbackDescribeHead (f : Finding) : String :=
  "describe(\"PoC#" ++ f.classId ++ ": " ++ f.className

/-- The credential the environment holds for a given provider. -/
def credentialOf (env : Env) : PocProvider → Option String
  | .kimi_code => env.kimiCodeApiKey
  | .moonshot => env.moonshotApiKey

/-- A fixed environment whose only setting is the primary credential, used to
instantiate the theorems below on concrete inputs. -/
def envKimi : Env := { kimiCodeApiKey := some "k" }

/-! Helper lemmas. -/

theorem data_app (s t : String) : (s ++ t).data = s.data ++ t.data := by
  cases s; cases t; rfl

theorem startsW_app (l r : List Char) : startsW l (l ++ r) = true := by
  induction l with
  | nil => rfl
  | cons a as ih => simp [startsW, ih]

theorem occursIn_nil (l : List Char) : occursIn [] l = true := by
  cases l <;> simp [occursIn, startsW]

theorem occursIn_app_self (pat x y : List Char) :
    occursIn pat (x ++ (pat ++ y)) = true := by
  induction x with
  | nil =>
    cases pat with
    | nil => exact occursIn_nil _
    | cons p ps =>
      simp only [List.nil_append, List.cons_append, occursIn, Bool.or_eq_true]
      left
      show startsW (p :: ps) ((p :: ps) ++ y) = true
      exact startsW_app _ _
  | cons c cs ih =>
    simp only [List.cons_append, occursIn, Bool.or_eq_true]
    right
    exact ih

theorem safeInt_malformed (s : String) (fb : Int) (h : jsParseInt10 s = none) :
    safeInt (some s) fb = fb := by
  simp only [safeInt]
  cases hs : (s == "") with
  | true => rfl
  | false => simp [hs, h]

theorem jsOrD_truthy (m d : String) (h : m ≠ "") : jsOrD (some m) d = m := by
  simp [jsOrD, h]

theorem jsOrD_falsy (a : Option String) (d : String) (h : truthy a = false) :
    jsOrD a d = d := by
  cases a with
  | none => rfl
  | some s =>
    simp only [truthy, bne_eq_false_iff_eq] at h
    simp [jsOrD, h]

theorem callLLMGo_log_cons (apiName : String) (responses : Nat → SimResponse)
    (retries : Nat) (mt : Int) (fuel : Nat) :
    ∃ t l, (callLLMGo apiName responses retries mt fuel).log = ⟨mt, t⟩ :: l := by
  cases fuel <;>
    · unfold callLLMGo
      dsimp only
      repeat' split
      all_goals exact ⟨_, _, rfl⟩

theorem dispatchTimes_fst_zero (delay : Nat) (items : List DispatchItem)
    (idx now a s : Nat) (h : (dispatchTimes delay items idx now)[0]? = some (a, s)) :
    a = now := by
  cases items with
  | nil => simp [dispatchTimes] at h
  | cons it rest =>
    simp [dispatchTimes] at h
    exact h.1.symm

theorem dispatchTimes_snd (delay : Nat) (items : List DispatchItem) :
    ∀ (idx now i a s : Nat),
      (dispatchTimes delay items idx now)[i]? = some (a, s) →
      s = a + (if 0 < idx + i then delay else 0) := by
  induction items with
  | nil =>
    intro idx now i a s h
    simp [dispatchTimes] at h
  | cons it rest ih =>
    intro idx now i a s h
    cases i with
    | zero =>
      simp [dispatchTimes] at h
      obtain ⟨ha, hs⟩ := h
      subst ha
      simp [← hs]
    | succ j =>
      simp only [dispatchTimes, List.getElem?_cons_succ] at h
      have hrec := ih (idx + 1) _ j a s h
      have hpos : 0 < idx + 1 + j := by omega
      have hpos2 : 0 < idx + (j + 1) := by omega
      simpa [hpos, hpos2] using hrec

theorem dispatchTimes_gap (delay : Nat) (items : List DispatchItem) :
    ∀ (idx now n a s a2 s2 : Nat),
      (dispatchTimes delay items idx now)[n]? = some (a, s) →
      (dispatchTimes delay items idx now)[n + 1]? = some (a2, s2) →
      a + delay ≤ s2 := by
  induction items with
  | nil =>
    intro idx now n a s a2 s2 h1 _
    simp [dispatchTimes] at h1
  | cons it rest ih =>
    intro idx now n a s a2 s2 h1 h2
    cases n with
    | zero =>
      simp only [dispatchTimes, List.getElem?_cons_zero, Option.some.injEq,
        Prod.mk.injEq, List.getElem?_cons_succ] at h1 h2
      obtain ⟨ha, _⟩ := h1
      have ha2 := dispatchTimes_fst_zero delay rest _ _ _ _ h2
      have hs2 := dispatchTimes_snd delay rest (idx + 1) _ 0 a2 s2 h2
      have hpos : 0 < idx + 1 + 0 := by omega
      rw [if_pos hpos] at hs2
      omega
    | succ j =>
      simp only [dispatchTimes, List.getElem?_cons_succ] at h1 h2
      exact ih (idx + 1) _ j a s a2 s2 h1 h2

theorem dispatchTimes_duration_only (delay : Nat) :
    ∀ (items items2 : List DispatchItem) (idx now : Nat),
      items.map DispatchItem.duration = items2.map DispatchItem.duration →
      dispatchTimes delay items idx now = dispatchTimes delay items2 idx now := by
  intro items
  induction items with
  | nil =>
    intro items2 idx now h
    cases items2 with
    | nil => rfl
    | cons b bs => simp at h
  | cons it rest ih =>
    intro items2 idx now h
    cases items2 with
    | nil => simp at h
    | cons it2 rest2 =>
      simp only [List.map_cons, List.cons.injEq] at h
      obtain ⟨hd, ht⟩ := h
      simp [dispatchTimes, hd, ih rest2 _ _ ht]

theorem callLLMGo_backoff_success (apiName : String) (responses : Nat → SimResponse)
    (retries : Nat) (mt : Int) (text : String) :
    ∀ fuel : Nat, fuel ≤ retries →
      (∀ i, retries - fuel ≤ i → i < retries →
        (responses i).status = 429 ∨ 500 ≤ (responses i).status) →
      200 ≤ (responses retries).status → (responses retries).status < 300 →
      (responses retries).content = some text → contentEmpty (some text) = false →
      callLLMGo apiName responses retries mt fuel =
        ⟨.success text,
         (List.range fuel).map (fun j => ⟨mt, some (3000 * 2 ^ (retries - fuel + j))⟩)
           ++ [⟨mt, none⟩]⟩ := by
  intro fuel
  induction fuel with
  | zero =>
    intro _ _ h200 h300 hcont hne
    unfold callLLMGo
    dsimp only
    simp only [Nat.sub_zero]
    rw [if_neg (by omega : ¬((responses retries).status = 429 ∨ 500 ≤ (responses retries).status))]
    rw [if_neg (by omega : ¬(responses retries).status = 400)]
    rw [if_neg (not_not_intro ⟨h200, h300⟩)]
    rw [hcont]
    rw [if_neg (by simp [hne])]
    simp

  | succ fuel ih =>
    intro hle hall h200 h300 hcont hne
    have hstat := hall (retries - (fuel + 1)) (by omega) (by omega)
    unfold callLLMGo
    dsimp only
    rw [if_pos hstat]
    rw [ih (by omega) (fun i hi1 hi2 => hall i (by omega) hi2) h200 h300 hcont hne]
    have hfun : ∀ j : Nat, retries - (fuel + 1) + (j + 1) = retries - fuel + j := by
      intro j
      omega
    simp [List.range_succ_eq_map, List.map_map, Function.comp, hfun]

theorem callLLMGo_backoff_exhaust (apiName : String) (responses : Nat → SimResponse)
    (retries : Nat) (mt : Int) :
    ∀ fuel : Nat, fuel ≤ retries →
      (∀ i, retries - fuel ≤ i → i ≤ retries →
        (responses i).status = 429 ∨ 500 ≤ (responses i).status) →
      callLLMGo apiName responses retries mt fuel =
        ⟨.failure (apiName ++ " " ++ toString (responses retries).status ++ ": "
            ++ takeChars (responses retries).body 300),
         (List.range fuel).map (fun j => ⟨mt, some (3000 * 2 ^ (retries - fuel + j))⟩)
           ++ [⟨mt, none⟩]⟩ := by
  intro fuel
  induction fuel with
  | zero =>
    intro _ hall
    have hstat := hall retries (by omega) (le_refl retries)
    unfold callLLMGo
    dsimp only
    simp only [Nat.sub_zero]
    rw [if_pos hstat]
    simp
  | succ fuel ih =>
    intro hle hall
    have hstat := hall (retries - (fuel + 1)) (by omega) (by omega)
    unfold callLLMGo
    dsimp only
    rw [if_pos hstat]
    rw [ih (by omega) (fun i hi1 hi2 => hall i (by omega) hi2)]
    have hfun : ∀ j : Nat, retries - (fuel + 1) + (j + 1) = retries - fuel + j := by
      intro j
      omega
    simp [List.range_succ_eq_map, List.map_map, Function.comp, hfun]

theorem callLLMGo_empty_exhaust (apiName : String) (responses : Nat → SimResponse)
    (retries : Nat) (mt : Int) :
    ∀ fuel : Nat, fuel ≤ retries →
      (∀ i, retries - fuel ≤ i → i ≤ retries →
        200 ≤ (responses i).status ∧ (responses i).status < 300 ∧
          contentEmpty (responses i).content = true) →
      callLLMGo apiName responses retries mt fuel =
        ⟨.failure "Empty response after retries",
         List.replicate fuel ⟨mt, some 1000⟩ ++ [⟨mt, none⟩]⟩ := by
  intro fuel
  induction fuel with
  | zero =>
    intro _ hall
    obtain ⟨h200, h300, hemp⟩ := hall retries (by omega) (le_refl retries)
    unfold callLLMGo
    dsimp only
    simp only [Nat.sub_zero]
    rw [if_neg (by omega : ¬((responses retries).status = 429 ∨ 500 ≤ (responses retries).status))]
    rw [if_neg (by omega : ¬(responses retries).status = 400)]
    rw [if_neg (not_not_intro ⟨h200, h300⟩)]
    rw [if_pos hemp]
    simp
  | succ fuel ih =>
    intro hle hall
    obtain ⟨h200, h300, hemp⟩ := hall (retries - (fuel + 1)) (by omega) (by omega)
    unfold callLLMGo
    dsimp only
    rw [if_neg (by omega : ¬((responses (retries - (fuel + 1))).status = 429 ∨
          500 ≤ (responses (retries - (fuel + 1))).status))]
    rw [if_neg (by omega : ¬(responses (retries - (fuel + 1))).status = 400)]
    rw [if_neg (not_not_intro ⟨h200, h300⟩)]
    rw [if_pos hemp]
    rw [ih (by omega) (fun i hi1 hi2 => hall i (by omega) hi2)]
    simp [List.replicate_succ]

/-! Claim theorems. -/

/-- C5: for every malformed numeric environment input (a value whose integer
parse is not finite), the resolved DispatchConfig field equals its documented
default: maxTokens 4096, timeoutMs 120000, retries 2, concurrency 1, maxPocs
10, interRequestDelayMs 2000. -/
theorem c5_malformed_env_defaults (env : Env) :
    (∀ s, env.llmPocMaxTokens = some s → jsParseInt10 s = none →
      (POC_CFG env).maxTokens = 4096) ∧
    (∀ s, env.llmPocTimeoutMs = some s → jsParseInt10 s = none →
      (POC_CFG env).timeoutMs = 120000) ∧
    (∀ s, env.llmPocRetries = some s → jsParseInt10 s = none →
      (POC_CFG env).retries = 2) ∧
    (∀ s, env.llmPocConcurrency = some s → jsParseInt10 s = none →
      (POC_CFG env).concurrency = 1) ∧
    (∀ s, env.llmPocMax = some s → jsParseInt10 s = none →
      (POC_CFG env).maxPocs = 10) ∧
    (∀ s, env.llmPocDelayMs = some s → jsParseInt10 s = none →
      (POC_CFG env).interRequestDelayMs = 2000) := by
  refine ⟨?_, ?_, ?_, ?_, ?_, ?_⟩ <;>
    · intro s hs hbad
      simp only [POC_CFG, hs]
      exact safeInt_malformed s _ hbad

/-- Witness for C5 at a concrete malformed environment. -/
theorem c5_malformed_env_defaults_witness :
    (POC_CFG { llmPocMaxTokens := some "abc", llmPocRetries := some " x1" }).maxTokens = 4096 ∧
    (POC_CFG { llmPocMaxTokens := some "abc", llmPocRetries := some " x1" }).retries = 2 :=
  ⟨(c5_malformed_env_defaults _).1 "abc" rfl (by decide),
   (c5_malformed_env_defaults _).2.2.1 " x1" rfl (by decide)⟩

/-- C10: for every environment value whose integer parse is finite, safeInt
returns that parsed value unchanged — including zero, negative numbers, and
prefix-parses such as "12abc" → 12 — so the documented range constraints
(retries ≥ 0, concurrency ≥ 1, maxItems ≥ 0, interRequestDelayMs ≥ 0) are not
enforced by the config loader. -/
theorem c10_safeInt_no_clamp :
    (∀ (s : String) (fb n : Int), jsParseInt10 s = some n → safeInt (some s) fb = n) ∧
    jsParseInt10 "0" = some 0 ∧
    jsParseInt10 "-7" = some (-7) ∧
    jsParseInt10 "12abc" = some 12 ∧
    (POC_CFG { llmPocRetries := some "-1", llmPocConcurrency := some "0",
               llmPocMax := some "-7", llmPocDelayMs := some "12abc" }).retries = -1 ∧
    (POC_CFG { llmPocRetries := some "-1", llmPocConcurrency := some "0",
               llmPocMax := some "-7", llmPocDelayMs := some "12abc" }).concurrency = 0 ∧
    (POC_CFG { llmPocRetries := some "-1", llmPocConcurrency := some "0",
               llmPocMax := some "-7", llmPocDelayMs := some "12abc" }).maxPocs = -7 ∧
    (POC_CFG { llmPocRetries := some "-1", llmPocConcurrency := some "0",
               llmPocMax := some "-7", llmPocDelayMs := some "12abc" }).interRequestDelayMs
      = 12 := by
  refine ⟨?_, by decide, by decide, by decide, by decide, by decide, by decide, by decide⟩
  intro s fb n h
  have hs : (s == "") = false := by
    cases hb : (s == "") with
    | false => rfl
    | true =>
      rw [eq_of_beq hb] at h
      have h' : (none : Option Int) = some n := h
      exact Option.noConfusion h'
  simp [safeInt, hs, h]

/-- Witness for C10: a prefix-parse passes through safeInt unchanged. -/
theorem c10_safeInt_no_clamp_witness : safeInt (some "12abc") 99 = 12 :=
  c10_safeInt_no_clamp.1 "12abc" 99 12 (by decide)

/-- C8: the endpoint URL is a pure function of the resolved provider taking
the provider-specific value, and the model name resolves to LLM_POC_MODEL if
set (truthy), else MOONSHOT_MODEL, else "kimi-k2.5", so the explicit model
override takes precedence over the provider default. -/
theorem c8_url_model_resolution :
    (∀ e1 e2 : Env, resolvePocProvider e1 = resolvePocProvider e2 →
      getPocApiUrl e1 = getPocApiUrl e2) ∧
    (∀ e : Env, resolvePocProvider e = .kimi_code →
      getPocApiUrl e = "https://api.kimi.com/coding/v1/chat/completions") ∧
    (∀ e : Env, resolvePocProvider e = .moonshot →
      getPocApiUrl e = "https://api.moonshot.ai/v1/chat/completions") ∧
    (∀ (e : Env) (m : String), e.llmPocModel = some m → m ≠ "" → getPocModel e = m) ∧
    (∀ (e : Env) (m : String), truthy e.llmPocModel = false →
      e.moonshotModel = some m → m ≠ "" → getPocModel e = m) ∧
    (∀ e : Env, truthy e.llmPocModel = false → truthy e.moonshotModel = false →
      getPocModel e = "kimi-k2.5") := by
  refine ⟨?_, ?_, ?_, ?_, ?_, ?_⟩
  · intro e1 e2 h
    simp only [getPocApiUrl, h]
  · intro e h
    simp [getPocApiUrl, h]
  · intro e h
    simp [getPocApiUrl, h]
  · intro e m hm hne
    simp only [getPocModel, hm]
    exact jsOrD_truthy m _ hne
  · intro e m h1 hm hne
    simp only [getPocModel]
    rw [jsOrD_falsy _ _ h1, hm]
    exact jsOrD_truthy m _ hne
  · intro e h1 h2
    simp only [getPocModel]
    rw [jsOrD_falsy _ _ h1, jsOrD_falsy _ _ h2]

/-- Witness for C8 at concrete environments. -/
theorem c8_url_model_resolution_witness :
    getPocModel { llmPocModel := some "my-model", moonshotModel := some "moon" } = "my-model" ∧
    getPocModel { moonshotModel := some "moon" } = "moon" ∧
    getPocModel {} = "kimi-k2.5" ∧
    getPocApiUrl envKimi = "https://api.kimi.com/coding/v1/chat/completions" :=
  ⟨c8_url_model_resolution.2.2.2.1 _ "my-model" rfl (by decide),
   c8_url_model_resolution.2.2.2.2.1 _ "moon" rfl rfl (by decide),
   c8_url_model_resolution.2.2.2.2.2 _ rfl rfl,
   c8_url_model_resolution.2.1 envKimi (by decide)⟩

/-- C9: the identifier token is PoC#<classId>, depends only on the finding's
class identifier (not the free-text title), is identical across runs on an
identical finding, and both the anchor run command and the fallback describe
header embed exactly that token. -/
theorem c9_stable_token :
    (∀ f g : Finding, f.classId = g.classId → pocToken f = pocToken g) ∧
    (∀ f : Finding, pocToken f = "PoC#" ++ f.classId) ∧
    (∀ (f g : Finding) (sn : String), f.classId = g.classId →
      runCommand true sn f = runCommand true sn g) ∧
    (∀ (f : Finding) (sn : String), jsIncl (runCommand true sn f) (pocToken f) = true) ∧
    (∀ f : Finding, jsIncl (fallbackDescribeHead f) (pocToken f) = true) := by
  refine ⟨?_, ?_, ?_, ?_, ?_⟩
  · intro f g h
    simp [pocToken, h]
  · intro f
    rfl
  · intro f g sn h
    simp [runCommand, h]
  · intro f sn
    have hsplit : ("cd <repo> && anchor test -- --grep \"PoC#" : String).data
        = ("cd <repo> && anchor test -- --grep \"" : String).data ++ ("PoC#" : String).data :=
      rfl
    have base := occursIn_app_self (("PoC#" : String).data ++ f.classId.data)
      ("cd <repo> && anchor test -- --grep \"" : String).data ("\"" : String).data
    simpa [jsIncl, pocToken, runCommand, data_app, hsplit, List.append_assoc] using base
  · intro f
    have hsplit : ("describe(\"PoC#" : String).data
        = ("describe(\"" : String).data ++ ("PoC#" : String).data := rfl
    have base := occursIn_app_self (("PoC#" : String).data ++ f.classId.data)
      ("describe(\"" : String).data ((": " : String).data ++ f.className.data)
    simpa [jsIncl, pocToken, fallbackDescribeHead, data_app, hsplit, List.append_assoc]
      using base

/-- Witness for C9 at a concrete finding whose title varies between runs. -/
theorem c9_stable_token_witness :
    runCommand true "safe" ⟨"42", "MissingSigner", "first title"⟩
      = runCommand true "safe" ⟨"42", "MissingSigner", "second title"⟩ ∧
    jsIncl (runCommand true "safe" ⟨"42", "MissingSigner", "first title"⟩)
      (pocToken ⟨"42", "MissingSigner", "first title"⟩) = true ∧
    jsIncl (fallbackDescribeHead ⟨"42", "MissingSigner", "first title"⟩)
      (pocToken ⟨"42", "MissingSigner", "first title"⟩) = true :=
  ⟨c9_stable_token.2.2.1 _ _ "safe" rfl,
   c9_stable_token.2.2.2.1 _ "safe",
   c9_stable_token.2.2.2.2 _⟩

/-- C4: provider resolution honors a recognized explicit override
(case-insensitively), otherwise auto-selects kimi_code exactly when its
credential is present, else moonshot; getPocApiKey is none exactly when the
resolved provider's credential is falsy, and in that case callLLM fails with
the configuration error with an empty request log — before any network
request, for every retry budget and provider behavior, hence never
retried. -/
theorem c4_provider_resolution_credential_check :
    (∀ (env : Env) (s : String), env.pocProvider = some s →
      (jsToLower s = "kimi_code" → resolvePocProvider env = .kimi_code) ∧
      (jsToLower s = "moonshot" → resolvePocProvider env = .moonshot)) ∧
    (∀ env : Env, env.pocProvider.map jsToLower ≠ some "kimi_code" →
      env.pocProvider.map jsToLower ≠ some "moonshot" →
      resolvePocProvider env =
        (if truthy env.kimiCodeApiKey then .kimi_code else .moonshot)) ∧
    (∀ env : Env, getPocApiKey env = none ↔
      truthy (credentialOf env (resolvePocProvider env)) = false) ∧
    (∀ (env : Env) (retries : Nat) (responses : Nat → SimResponse),
      getPocApiKey env = none →
      callLLM env retries responses =
        ⟨.failure (apiNameOf (resolvePocProvider env) ++ " API key not set (POC_PROVIDER="
            ++ providerTag (resolvePocProvider env) ++ ")"), []⟩) := by
  refine ⟨?_, ?_, ?_, ?_⟩
  · intro env s hs
    constructor <;> intro h <;> simp [resolvePocProvider, hs, h]
  · intro env h1 h2
    have b1 : (env.pocProvider.map jsToLower == some "kimi_code") = false :=
      beq_eq_false_iff_ne.mpr h1
    have b2 : (env.pocProvider.map jsToLower == some "moonshot") = false :=
      beq_eq_false_iff_ne.mpr h2
    simp [resolvePocProvider, b1, b2]
  · intro env
    rcases hp : resolvePocProvider env with _ | _ <;>
      simp only [getPocApiKey, credentialOf, hp] <;>
      cases hk : truthy env.kimiCodeApiKey <;>
      cases hm : truthy env.moonshotApiKey <;>
      simp [hk, hm] <;>
      intro hnone
    · rw [hnone] at hk
      simp [truthy] at hk
    · rw [hnone] at hk
      simp [truthy] at hk
    · rw [hnone] at hm
      simp [truthy] at hm
    · rw [hnone] at hm
      simp [truthy] at hm
  · intro env retries responses h
    simp [callLLM, h]

/-- Witness for C4: an explicit case-insensitive override resolves to
moonshot; with no Moonshot credential the call fails before any request. -/
theorem c4_provider_resolution_credential_check_witness :
    resolvePocProvider { pocProvider := some "MOONSHOT", kimiCodeApiKey := some "k" }
      = .moonshot ∧
    resolvePocProvider envKimi = .kimi_code ∧
    callLLM { pocProvider := some "MOONSHOT", kimiCodeApiKey := some "k" } 2
        (fun _ => ⟨200, "", some "x"⟩)
      = ⟨.failure "Moonshot API key not set (POC_PROVIDER=moonshot)", []⟩ :=
  ⟨(c4_provider_resolution_credential_check.1 _ "MOONSHOT" rfl).2 (by decide),
   (c4_provider_resolution_credential_check.2.1 envKimi (by decide) (by decide)).trans
     (by decide),
   (c4_provider_resolution_credential_check.2.2.2 _ 2 (fun _ => ⟨200, "", some "x"⟩)
     (by decide)).trans (by decide)⟩

/-- C7: under the sequential dispatch schedule, the inter-request cooldown of
interRequestDelayMs is inserted before every item except the first admitted
item; the schedule depends only on request durations, not on whether prior
items succeeded or failed; and request N+1 is issued no earlier than
interRequestDelayMs after request N is admitted. -/
theorem c7_cooldown_schedule (delay : Nat) (items : List DispatchItem) :
    (∀ i a s : Nat, (dispatchSchedule delay items)[i]? = some (a, s) →
      s = a + (if 0 < i then delay else 0)) ∧
    (∀ items2 : List DispatchItem,
      items.map DispatchItem.duration = items2.map DispatchItem.duration →
      dispatchSchedule delay items = dispatchSchedule delay items2) ∧
    (∀ n a s a2 s2 : Nat, (dispatchSchedule delay items)[n]? = some (a, s) →
      (dispatchSchedule delay items)[n + 1]? = some (a2, s2) →
      a + delay ≤ s2) := by
  refine ⟨?_, ?_, ?_⟩
  · intro i a s h
    simpa using dispatchTimes_snd delay items 0 0 i a s h
  · intro items2 h
    exact dispatchTimes_duration_only delay items items2 0 0 h
  · intro n a s a2 s2 h1 h2
    exact dispatchTimes_gap delay items 0 0 n a s a2 s2 h1 h2

/-- Witness for C7 on a three-item batch with mixed outcomes, concurrency 1
and a 2000ms cooldown. -/
theorem c7_cooldown_schedule_witness :
    (2050 : Nat) = 50 + (if 0 < (1 : Nat) then 2000 else 0) ∧
    dispatchSchedule 2000 [⟨50, false⟩, ⟨10, true⟩, ⟨5, true⟩]
      = dispatchSchedule 2000 [⟨50, true⟩, ⟨10, false⟩, ⟨5, true⟩] ∧
    (0 : Nat) + 2000 ≤ 2050 :=
  ⟨(c7_cooldown_schedule 2000 [⟨50, false⟩, ⟨10, true⟩, ⟨5, true⟩]).1 1 50 2050 (by decide),
   (c7_cooldown_schedule 2000 [⟨50, false⟩, ⟨10, true⟩, ⟨5, true⟩]).2.1 _ (by decide),
   (c7_cooldown_schedule 2000 [⟨50, false⟩, ⟨10, true⟩, ⟨5, true⟩]).2.2 0 0 0 50 2050
     (by decide) (by decide)⟩

/-- C1: a 400 response is classified on the lower-cased body: with a
transient marker ("rate limit", "overloaded", "try again", "temporarily",
"throttl") and budget left, execute retries with the backoff schedule
(first delay 3000 = 3000 * 2 ^ 0, a second request is issued); with neither
a transient nor a token-limit marker (e.g. body "invalid model"), it fails
on the first attempt with zero retries consumed. -/
theorem c1_smart_400 :
    (∀ (env : Env) (retries : Nat) (responses : Nat → SimResponse),
      (getPocApiKey env).isSome = true → 0 < retries →
      (responses 0).status = 400 →
      hasTransientMarker (jsToLower (responses 0).body) = true →
      2 ≤ (callLLM env retries responses).log.length ∧
      (callLLM env retries responses).log.head?
        = some ⟨(POC_CFG env).maxTokens, some 3000⟩) ∧
    (∀ (env : Env) (retries : Nat) (responses : Nat → SimResponse),
      (getPocApiKey env).isSome = true →
      (responses 0).status = 400 →
      hasTransientMarker (jsToLower (responses 0).body) = false →
      hasTokenLimitMarker (jsToLower (responses 0).body) = false →
      callLLM env retries responses =
        ⟨.failure (apiNameOf (resolvePocProvider env) ++ " 400 (deterministic): "
            ++ takeChars (responses 0).body 300),
         [⟨(POC_CFG env).maxTokens, none⟩]⟩) := by
  constructor
  · intro env retries responses hkey hret h400 htrans
    obtain ⟨k, hk⟩ := Option.isSome_iff_exists.mp hkey
    obtain ⟨f, rfl⟩ : ∃ f, retries = f + 1 := ⟨retries - 1, by omega⟩
    simp only [callLLM, hk]
    unfold callLLMGo
    dsimp only
    simp only [Nat.sub_self]
    rw [if_neg (by omega : ¬((responses 0).status = 429 ∨ 500 ≤ (responses 0).status))]
    rw [if_pos h400]
    rw [if_pos htrans]
    obtain ⟨t, l, hl⟩ := callLLMGo_log_cons (apiNameOf (resolvePocProvider env))
      responses (f + 1) (POC_CFG env).maxTokens f
    simp [hl]
  · intro env retries responses hkey h400 htrans htok
    obtain ⟨k, hk⟩ := Option.isSome_iff_exists.mp hkey
    simp only [callLLM, hk]
    cases retries with
    | zero =>
      unfold callLLMGo
      dsimp only
      simp only [Nat.sub_self]
      rw [if_neg (by omega : ¬((responses 0).status = 429 ∨ 500 ≤ (responses 0).status))]
      rw [if_pos h400]
    | succ f =>
      unfold callLLMGo
      dsimp only
      simp only [Nat.sub_self]
      rw [if_neg (by omega : ¬((responses 0).status = 429 ∨ 500 ≤ (responses 0).status))]
      rw [if_pos h400]
      rw [if_neg (by simp [htrans])]
      rw [if_neg (by simp [htok])]

/-- Witness for C1: a transient 400 body is retried with a 3000ms first
backoff; the deterministic body "invalid model" fails on the only attempt. -/
theorem c1_smart_400_witness :
    (2 ≤ (callLLM envKimi 2 (fun _ => ⟨400, "Rate limit exceeded", none⟩)).log.length ∧
     (callLLM envKimi 2 (fun _ => ⟨400, "Rate limit exceeded", none⟩)).log.head?
       = some ⟨4096, some 3000⟩) ∧
    callLLM envKimi 2 (fun _ => ⟨400, "invalid model", none⟩)
      = ⟨.failure "Kimi Code 400 (deterministic): invalid model", [⟨4096, none⟩]⟩ :=
  ⟨c1_smart_400.1 envKimi 2 _ (by decide) (by decide) (by decide) (by decide),
   (c1_smart_400.2 envKimi 2 _ (by decide) (by decide) (by decide) (by decide)).trans
     (by decide)⟩

/-- C2: a 400 whose body carries a token/context-limit marker (and no
transient marker) halves the working maxTokens while the current value is
above the 2048 floor and retries after a fixed 1000ms sleep, bounded by the
shared retries counter, so the second request carries maxTokens / 2 (2048
when starting from 4096); when maxTokens is at or below the floor or the
budget is exhausted the call fails terminally on that attempt. -/
theorem c2_token_downshift :
    (∀ (env : Env) (retries : Nat) (responses : Nat → SimResponse),
      (getPocApiKey env).isSome = true → 0 < retries →
      (responses 0).status = 400 →
      hasTransientMarker (jsToLower (responses 0).body) = false →
      hasTokenLimitMarker (jsToLower (responses 0).body) = true →
      2048 < (POC_CFG env).maxTokens →
      (callLLM env retries responses).log.head?
          = some ⟨(POC_CFG env).maxTokens, some 1000⟩ ∧
      ((callLLM env retries responses).log.map AttemptLog.sentMaxTokens)[1]?
          = some ((POC_CFG env).maxTokens / 2)) ∧
    (∀ (env : Env) (retries : Nat) (responses : Nat → SimResponse),
      (getPocApiKey env).isSome = true →
      (responses 0).status = 400 →
      hasTransientMarker (jsToLower (responses 0).body) = false →
      hasTokenLimitMarker (jsToLower (responses 0).body) = true →
      ((POC_CFG env).maxTokens ≤ 2048 ∨ retries = 0) →
      callLLM env retries responses =
        ⟨.failure (apiNameOf (resolvePocProvider env) ++ " 400 (deterministic): "
            ++ takeChars (responses 0).body 300),
         [⟨(POC_CFG env).maxTokens, none⟩]⟩) := by
  constructor
  · intro env retries responses hkey hret h400 htrans htok hmt
    obtain ⟨k, hk⟩ := Option.isSome_iff_exists.mp hkey
    obtain ⟨f, rfl⟩ : ∃ f, retries = f + 1 := ⟨retries - 1, by omega⟩
    simp only [callLLM, hk]
    unfold callLLMGo
    dsimp only
    simp only [Nat.sub_self]
    rw [if_neg (by omega : ¬((responses 0).status = 429 ∨ 500 ≤ (responses 0).status))]
    rw [if_pos h400]
    rw [if_neg (by simp [htrans])]
    rw [if_pos ⟨htok, hmt⟩]
    obtain ⟨t, l, hl⟩ := callLLMGo_log_cons (apiNameOf (resolvePocProvider env))
      responses (f + 1) ((POC_CFG env).maxTokens / 2) f
    simp [hl]
  · intro env retries responses hkey h400 htrans htok hfail
    obtain ⟨k, hk⟩ := Option.isSome_iff_exists.mp hkey
    simp only [callLLM, hk]
    cases retries with
    | zero =>
      unfold callLLMGo
      dsimp only
      simp only [Nat.sub_self]
      rw [if_neg (by omega : ¬((responses 0).status = 429 ∨ 500 ≤ (responses 0).status))]
      rw [if_pos h400]
    | succ f =>
      have hmt : (POC_CFG env).maxTokens ≤ 2048 := by
        rcases hfail with h | h
        · exact h
        · exact absurd h (by omega)
      unfold callLLMGo
      dsimp only
      simp only [Nat.sub_self]
      rw [if_neg (by omega : ¬((responses 0).status = 429 ∨ 500 ≤ (responses 0).status))]
      rw [if_pos h400]
      rw [if_neg (by simp [htrans])]
      rw [if_neg (fun hc => absurd hc.2 (by omega))]

/-- Witness for C2: a "maximum context length exceeded" 400 with the default
maxTokens = 4096 makes the second request carry 2048. -/
theorem c2_token_downshift_witness :
    (callLLM envKimi 2
        (fun _ => ⟨400, "maximum context length exceeded", none⟩)).log.head?
      = some ⟨4096, some 1000⟩ ∧
    ((callLLM envKimi 2
        (fun _ => ⟨400, "maximum context length exceeded", none⟩)).log.map
      AttemptLog.sentMaxTokens)[1]? = some 2048 :=
  c2_token_downshift.1 envKimi 2 _ (by decide) (by decide) (by decide) (by decide)
    (by decide) (by decide)

/-- C3: 429 and 5xx responses are retried after exponential delays
3000 * 2 ^ attempt for up to retries additional attempts: a provider
returning 429/5xx exactly retries times then a non-empty success yields
success with retries + 1 attempts and exactly that delay schedule; a
provider failing every attempt yields a terminal failure carrying the
truncated (300-character) body of the last response. -/
theorem c3_backoff_retry :
    (∀ (env : Env) (retries : Nat) (responses : Nat → SimResponse) (text : String),
      (getPocApiKey env).isSome = true →
      (∀ i, i < retries → (responses i).status = 429 ∨ 500 ≤ (responses i).status) →
      200 ≤ (responses retries).status → (responses retries).status < 300 →
      (responses retries).content = some text → contentEmpty (some text) = false →
      callLLM env retries responses =
        ⟨.success text,
         (List.range retries).map
             (fun j => ⟨(POC_CFG env).maxTokens, some (3000 * 2 ^ j)⟩)
           ++ [⟨(POC_CFG env).maxTokens, none⟩]⟩ ∧
      (callLLM env retries responses).log.length = retries + 1) ∧
    (∀ (env : Env) (retries : Nat) (responses : Nat → SimResponse),
      (getPocApiKey env).isSome = true →
      (∀ i, i ≤ retries → (responses i).status = 429 ∨ 500 ≤ (responses i).status) →
      callLLM env retries responses =
        ⟨.failure (apiNameOf (resolvePocProvider env) ++ " "
            ++ toString (responses retries).status ++ ": "
            ++ takeChars (responses retries).body 300),
         (List.range retries).map
             (fun j => ⟨(POC_CFG env).maxTokens, some (3000 * 2 ^ j)⟩)
           ++ [⟨(POC_CFG env).maxTokens, none⟩]⟩) := by
  constructor
  · intro env retries responses text hkey hall h200 h300 hcont hne
    obtain ⟨k, hk⟩ := Option.isSome_iff_exists.mp hkey
    have hmain := callLLMGo_backoff_success (apiNameOf (resolvePocProvider env))
      responses retries (POC_CFG env).maxTokens text retries (le_refl retries)
      (fun i _ hi => hall i hi) h200 h300 hcont hne
    simp only [callLLM, hk]
    rw [hmain]
    simp [Nat.sub_self]
  · intro env retries responses hkey hall
    obtain ⟨k, hk⟩ := Option.isSome_iff_exists.mp hkey
    have hmain := callLLMGo_backoff_exhaust (apiNameOf (resolvePocProvider env))
      responses retries (POC_CFG env).maxTokens retries (le_refl retries)
      (fun i _ hi => hall i hi)
    simp only [callLLM, hk]
    rw [hmain]
    simp [Nat.sub_self]

/-- Witness for C3 with retries = 2: two 429s then success gives three
attempts with delays 3000 and 6000; persistent 429 carries the body in the
terminal failure. -/
theorem c3_backoff_retry_witness :
    (callLLM envKimi 2 (fun i => if i < 2 then ⟨429, "rl", none⟩ else ⟨200, "", some "ok"⟩)
      = ⟨.success "ok", [⟨4096, some 3000⟩, ⟨4096, some 6000⟩, ⟨4096, none⟩]⟩ ∧
     (callLLM envKimi 2
        (fun i => if i < 2 then ⟨429, "rl", none⟩ else ⟨200, "", some "ok"⟩)).log.length
       = 3) ∧
    callLLM envKimi 2 (fun _ => ⟨429, "Too Many Requests", none⟩)
      = ⟨.failure "Kimi Code 429: Too Many Requests",
         [⟨4096, some 3000⟩, ⟨4096, some 6000⟩, ⟨4096, none⟩]⟩ :=
  ⟨by
    have h := c3_backoff_retry.1 envKimi 2
      (fun i => if i < 2 then ⟨429, "rl", none⟩ else ⟨200, "", some "ok"⟩) "ok"
      (by decide) (fun i hi => Or.inl (by simp [hi])) (by decide) (by decide)
      (by decide) (by decide)
    exact ⟨h.1.trans (by decide), h.2⟩,
   (c3_backoff_retry.2 envKimi 2 (fun _ => ⟨429, "Too Many Requests", none⟩)
      (by decide) (fun i _ => Or.inl rfl)).trans (by decide)⟩

/-- C6 counterexample: with the shared default budget retries = 2 and a
provider always answering 2xx with whitespace-only content, callLLM issues
three attempts — two extra attempts after 1000ms sleeps, not the single
extra attempt the claim states — before the terminal failure. -/
theorem c6_counterexample :
    callLLM envKimi 2 (fun _ => ⟨200, "", some " "⟩)
      = ⟨.failure "Empty response after retries",
         [⟨4096, some 1000⟩, ⟨4096, some 1000⟩, ⟨4096, none⟩]⟩ ∧
    ¬ (callLLM envKimi 2 (fun _ => ⟨200, "", some " "⟩)).log.length = 2 := by
  constructor
  · decide
  · decide

/-- C6 amended: on 2xx responses whose extracted text is empty or
whitespace-only, execute retries after a fixed 1000ms delay, consuming the
shared retries counter — up to retries extra attempts, not exactly one —
before failing terminally with "Empty response after retries". -/
theorem c6_empty_retry (env : Env) (retries : Nat) (responses : Nat → SimResponse)
    (hkey : (getPocApiKey env).isSome = true)
    (hall : ∀ i, i ≤ retries → 200 ≤ (responses i).status ∧
      (responses i).status < 300 ∧ contentEmpty (responses i).content = true) :
    callLLM env retries responses =
      ⟨.failure "Empty response after retries",
       List.replicate retries ⟨(POC_CFG env).maxTokens, some 1000⟩
         ++ [⟨(POC_CFG env).maxTokens, none⟩]⟩ := by
  obtain ⟨k, hk⟩ := Option.isSome_iff_exists.mp hkey
  have hmain := callLLMGo_empty_exhaust (apiNameOf (resolvePocProvider env))
    responses retries (POC_CFG env).maxTokens retries (le_refl retries)
    (fun i _ hi => hall i hi)
  simp only [callLLM, hk]
  rw [hmain]

/-- Witness for C6 (amended) at retries = 2 with whitespace-only content. -/
theorem c6_empty_retry_witness :
    callLLM envKimi 2 (fun _ => ⟨200, "", some "  "⟩)
      = ⟨.failure "Empty response after retries",
         [⟨4096, some 1000⟩, ⟨4096, some 1000⟩, ⟨4096, none⟩]⟩ :=
  (c6_empty_retry envKimi 2 _ (by decide) (fun i _ => by decide)).trans (by decide)

end SolAudit
